import Mathlib

/-!
Shallow embedding of the bio-ai-blockchain client core
(`backend/test_runner.py` and `backend/bio_hack.py`).

Python `bytes` values are modelled as `List Nat` with entries below 256;
Python strings are modelled by their UTF-8 byte sequences.  Python slicing
`data[a:b]` (which never raises) is `pySlice`; single-element indexing
`data[i]` (which raises `IndexError` out of range) is `List.get?`.
The decoder of `get_claims` (test_runner.py lines 261-367), the instruction
builders (lines 93-127), the local validation of `BioHackClient.add_claim`
(bio_hack.py lines 250-255) and the blockhash retry loop shared by
`initialize` and `add_claim` (lines 155-179 and 208-232) are embedded as
pure functions below.
-/

namespace BioChain

/-- Python `bytes`: a list of byte values. -/
abbrev Bytes := List Nat

/-- Python slice `data[a:b]` for `a ≤ b`: never raises, just shortens. -/
def pySlice (data : Bytes) (a b : Nat) : Bytes :=
  (data.drop a).take (b - a)

/-- Little-endian interpretation of a byte list, as in
`int.from_bytes(bs, "little")`. -/
def leNat : Bytes → Nat
  | [] => 0
  | b :: bs => b + 256 * leNat bs

/-- `n.to_bytes(w, "little")`: the `w` little-endian bytes of `n`. -/
def natToLe : Nat → Nat → Bytes
  | 0, _ => []
  | w + 1, n => n % 256 :: natToLe w (n / 256)

/-- `int.from_bytes(bs, "little", signed=True)` for an 8-byte list. -/
def leInt64 (bs : Bytes) : Int :=
  let n := leNat bs
  if n < 2 ^ 63 then (n : Int) else (n : Int) - 2 ^ 64

/-- The 8 little-endian bytes of a signed 64-bit value (two's complement). -/
def intToLe8 (v : Int) : Bytes :=
  natToLe 8 (v % 2 ^ 64).toNat

/-- Is `b` a UTF-8 continuation byte (`0x80..0xBF`)? -/
def isCont (b : Nat) : Bool :=
  0x80 ≤ b && b < 0xC0

/-- Strict RFC 3629 UTF-8 validity, as enforced by Python's
`bytes.decode("utf-8")`: no overlong forms, no surrogates, no code points
above U+10FFFF. -/
def utf8Valid : Bytes → Bool
  | [] => true
  | b :: rest =>
    if b < 0x80 then utf8Valid rest
    else if b < 0xC2 then false
    else if b < 0xE0 then
      match rest with
      | c1 :: r => isCont c1 && utf8Valid r
      | [] => false
    else if b < 0xF0 then
      match rest with
      | c1 :: c2 :: r =>
        (if b = 0xE0 then 0xA0 ≤ c1 && c1 < 0xC0
         else if b = 0xED then 0x80 ≤ c1 && c1 < 0xA0
         else isCont c1) && isCont c2 && utf8Valid r
      | _ => false
    else if b < 0xF5 then
      match rest with
      | c1 :: c2 :: c3 :: r =>
        (if b = 0xF0 then 0x90 ≤ c1 && c1 < 0xC0
         else if b = 0xF4 then 0x80 ≤ c1 && c1 < 0x90
         else isCont c1) && isCont c2 && isCont c3 && utf8Valid r
      | _ => false
    else false

/-- One decoded claim record (test_runner.py lines 358-364).  The Python
code renders `claim_id_hash`, `data_hash` and `creator` as hex strings and
`json_url` as a decoded `str`; we keep the underlying bytes, which the hex
and UTF-8 renderings determine bijectively. -/
structure ClaimRec where
  claim_id_hash : Bytes
  json_url : Bytes
  data_hash : Bytes
  creator : Bytes
  created_at : Int
deriving DecidableEq, Repr

/-- The record-decoding loop of `get_claims` (test_runner.py lines
299-364), with its explicit forward cursor `offset`.  A failed bounds
check is a `break` (the accumulated prefix is returned); a UTF-8 failure
on the url advances the cursor past the url bytes only and `continue`s. -/
def decodeLoop (data : Bytes) (offset : Nat) : Nat → List ClaimRec
  | 0 => []
  | n + 1 =>
    if offset + 32 > data.length then []
    else
      let claim_id_hash := pySlice data offset (offset + 32)
      let o1 := offset + 32
      if o1 + 4 > data.length then []
      else
        let json_url_len := leNat (pySlice data o1 (o1 + 4))
        let o2 := o1 + 4
        if json_url_len > 1000 then []
        else if o2 + json_url_len > data.length then []
        else
          let url := pySlice data o2 (o2 + json_url_len)
          if ¬ utf8Valid url then decodeLoop data (o2 + json_url_len) n
          else
            let o3 := o2 + json_url_len
            if o3 + 32 > data.length then []
            else
              let data_hash := pySlice data o3 (o3 + 32)
              let o4 := o3 + 32
              if o4 + 32 > data.length then []
              else
                let creator := pySlice data o4 (o4 + 32)
                let o5 := o4 + 32
                if o5 + 8 > data.length then []
                else
                  { claim_id_hash := claim_id_hash
                    json_url := url
                    data_hash := data_hash
                    creator := creator
                    created_at := leInt64 (pySlice data o5 (o5 + 8)) } ::
                    decodeLoop data (o5 + 8) n

/-- A Python exception escaping the decode (caught and re-raised by the
outer handler of `get_claims`). -/
inductive PyError where
  /-- `IndexError` from `data[offset]` (test_runner.py line 280). -/
  | indexError : PyError
  /-- `ValueError` from `Pubkey(...)` on a slice that is not 32 bytes. -/
  | valueError : PyError
deriving DecidableEq, Repr

/-- Why `get_claims` fell back to calling `initialize()` and returning
`[]` (test_runner.py lines 263-266, 284-287, 293-296). -/
inductive ReinitReason where
  /-- the PDA account snapshot was absent (line 263). -/
  | accountAbsent : ReinitReason
  /-- the buffer ended before the 4-byte claim count (line 284). -/
  | countTruncated : ReinitReason
  /-- the claim count exceeded the sanity ceiling 1000 (line 293). -/
  | corruptCount : ReinitReason
deriving DecidableEq, Repr

/-- Outcome of one `get_claims` call. -/
inductive GetClaimsResult where
  | raised (e : PyError)
  | reinit (r : ReinitReason)
  | claims (cs : List ClaimRec)
deriving DecidableEq, Repr

/-- The account-buffer decode of `get_claims` (test_runner.py lines
275-367).  The header is read without bounds checks: `Pubkey(data[8:40])`
raises `ValueError` when the slice is short, `data[40]` raises
`IndexError` when absent, and `Pubkey(data[41:73])` raises `ValueError`
when the tag byte is nonzero and the slice is short.  The cursor then sits
at 73 regardless of the tag byte, where the claim count is bounds-checked
and sanity-checked before the record loop starts at offset 77. -/
def decodeAccountData (data : Bytes) : GetClaimsResult :=
  let owner := pySlice data 8 40
  if owner.length ≠ 32 then .raised .valueError
  else
    match data.get? 40 with
    | none => .raised .indexError
    | some tag =>
      if tag ≠ 0 ∧ (pySlice data 41 73).length ≠ 32 then .raised .valueError
      else
        let offset := 73
        if offset + 4 > data.length then .reinit .countTruncated
        else
          let num_claims := leNat (pySlice data offset (offset + 4))
          if num_claims > 1000 then .reinit .corruptCount
          else .claims (decodeLoop data (offset + 4) num_claims)

/-- `get_claims` after the account snapshot is fetched (test_runner.py
lines 262-367): an absent account triggers `initialize()` and an empty
result, otherwise the buffer is decoded. -/
def get_claims (snapshot : Option Bytes) : GetClaimsResult :=
  match snapshot with
  | none => .reinit .accountAbsent
  | some data => decodeAccountData data

/-- The claim list handed back to the caller: `none` when the call raised,
`some []` on the reinitialize paths, the decoded records otherwise. -/
def returned_claims : GetClaimsResult → Option (List ClaimRec)
  | .raised _ => none
  | .reinit _ => some []
  | .claims cs => some cs

/-- Did the call issue an `initialize()` submission from the read path? -/
def initialize_invoked : GetClaimsResult → Bool
  | .reinit _ => true
  | _ => false

/-- `PROGRAM_ID` (test_runner.py line 18): the 32 bytes of the base58
address `DV88SqFNjehQYUdgezSEYK5Hp4xgx54s7Na4jpmBYKJ9`. -/
def PROGRAM_ID : Bytes :=
  [185, 128, 144, 219, 11, 145, 61, 67, 80, 66, 127, 231, 77, 179, 0, 167,
   122, 46, 88, 243, 116, 52, 106, 129, 63, 108, 248, 49, 179, 142, 181, 34]

/-- `SYSTEM_PROGRAM` (test_runner.py line 20): the all-zero address. -/
def SYSTEM_PROGRAM : Bytes := List.replicate 32 0

/-- `get_pda()` (test_runner.py lines 84-87).  `find_program_address` is a
deterministic external library primitive (SHA-256 based derivation from
the seed `b"program_data"` and `PROGRAM_ID`); its hash internals are out
of scope, so the derived address is embedded as a fixed 32-byte constant —
the claims depend only on it being one deterministic value. -/
def get_pda : Bytes := List.replicate 32 7

/-- `encode_option_pubkey` (test_runner.py lines 73-77). -/
def encode_option_pubkey : Option Bytes → Bytes
  | none => [0]
  | some pk => 1 :: pk

/-- `encode_string` (test_runner.py lines 79-82): 4-byte little-endian
length of the UTF-8 encoding, then the UTF-8 bytes. -/
def encode_string (s : Bytes) : Bytes :=
  natToLe 4 s.length ++ s

/-- `solders.instruction.AccountMeta`. -/
structure AccountMeta where
  pubkey : Bytes
  is_signer : Bool
  is_writable : Bool
deriving DecidableEq, Repr

/-- `solders.instruction.Instruction`. -/
structure Instruction where
  program_id : Bytes
  data : Bytes
  accounts : List AccountMeta
deriving DecidableEq, Repr

/-- `build_initialize_instruction` (test_runner.py lines 93-103). -/
def build_initialize_instruction (creator : Bytes) (initial_owner : Option Bytes) :
    Instruction :=
  { program_id := PROGRAM_ID
    data := [175, 175, 109, 31, 13, 152, 155, 237] ++ encode_option_pubkey initial_owner
    accounts :=
      [{ pubkey := get_pda, is_signer := false, is_writable := true },
       { pubkey := creator, is_signer := true, is_writable := true },
       { pubkey := SYSTEM_PROGRAM, is_signer := false, is_writable := false }] }

/-- `build_add_claim_instruction` (test_runner.py lines 105-116): raises
`ValueError` when `data_hash` is not 32 bytes, before the data and account
list are assembled; no other input is validated. -/
def build_add_claim_instruction (creator claim_id json_url data_hash : Bytes) :
    Except Unit Instruction :=
  if data_hash.length ≠ 32 then .error ()
  else
    .ok
      { program_id := PROGRAM_ID
        data := [70, 114, 85, 106, 66, 244, 46, 99] ++
          encode_string claim_id ++ encode_string json_url ++ data_hash
        accounts :=
          [{ pubkey := get_pda, is_signer := false, is_writable := true },
           { pubkey := creator, is_signer := true, is_writable := true }] }

/-- `build_get_claims_instruction` (test_runner.py lines 118-127). -/
def build_get_claims_instruction (requester : Bytes) : Instruction :=
  { program_id := PROGRAM_ID
    data := [137, 77, 151, 53, 39, 5, 110, 188]
    accounts :=
      [{ pubkey := get_pda, is_signer := false, is_writable := false },
       { pubkey := requester, is_signer := true, is_writable := true }] }

/-- The local validation errors raised by `BioHackClient.add_claim`
(bio_hack.py lines 250-255). -/
inductive ValidationError where
  | emptyClaimId : ValidationError
  | emptyJsonUrl : ValidationError
  | badHashLength : ValidationError
deriving DecidableEq, Repr

namespace BioHackClient

/-- The input validation of `BioHackClient.add_claim` (bio_hack.py lines
249-255), performed before the PDA derivation and the RPC call: empty
`claim_id`, empty `json_url`, or a `data_hash` that is not exactly 32
bytes raises a `ValueError`. -/
def add_claim_validate (claim_id json_url data_hash : Bytes) :
    Option ValidationError :=
  if claim_id.isEmpty then some .emptyClaimId
  else if json_url.isEmpty then some .emptyJsonUrl
  else if data_hash.length ≠ 32 then some .badHashLength
  else none

end BioHackClient

/-- `MAX_RETRIES` (test_runner.py line 24). -/
def MAX_RETRIES : Nat := 3

/-- `RETRY_DELAY` in seconds (test_runner.py line 25). -/
def RETRY_DELAY : Nat := 2

/-- What one submission attempt does: the blockhash fetch plus
`send_transaction` of that attempt either succeeds with a signature,
raises an exception whose text contains `"BlockhashNotFound"`, or raises
some other exception (identified by a code). -/
inductive AttemptOutcome where
  | success (sig : Nat)
  | staleBlockhash
  | otherFailure (e : Nat)
deriving DecidableEq, Repr

/-- The error that escapes the retry loop. -/
inductive SubmitError where
  /-- a `BlockhashNotFound` exception re-raised on the final attempt. -/
  | stale : SubmitError
  /-- any other exception, re-raised at once. -/
  | other (e : Nat)
deriving DecidableEq, Repr

deriving instance DecidableEq for Except

/-- Observable summary of one run of the retry loop. -/
structure SubmitRun where
  /-- the returned signature, or the re-raised exception. -/
  result : Except SubmitError Nat
  /-- how many send attempts were made (each preceded by a fresh
  `get_latest_blockhash`). -/
  attempts : Nat
  /-- how many `get_latest_blockhash` fetches were made. -/
  blockhash_fetches : Nat
  /-- the `asyncio.sleep` durations, in order. -/
  delays : List Nat
deriving DecidableEq, Repr

/-- The body of `for attempt in range(1, MAX_RETRIES + 1)` shared by
`initialize` and `add_claim` (test_runner.py lines 155-179 and 208-232):
each attempt fetches a fresh blockhash and submits; a
`BlockhashNotFound` exception with `attempt < MAX_RETRIES` sleeps
`RETRY_DELAY` and continues, every other exception (and a stale blockhash
on the final attempt) is re-raised at once.  `fuel` is
`MAX_RETRIES + 1 - attempt`, so the guard makes fuel 0 unreachable. -/
def submitLoop (o : Nat → AttemptOutcome) : Nat → Nat → SubmitRun
  | _, 0 => { result := .error .stale, attempts := 0, blockhash_fetches := 0, delays := [] }
  | attempt, fuel + 1 =>
    match o attempt with
    | .success sig =>
      { result := .ok sig, attempts := 1, blockhash_fetches := 1, delays := [] }
    | .staleBlockhash =>
      if attempt < MAX_RETRIES then
        let rest := submitLoop o (attempt + 1) fuel
        { result := rest.result
          attempts := rest.attempts + 1
          blockhash_fetches := rest.blockhash_fetches + 1
          delays := RETRY_DELAY :: rest.delays }
      else
        { result := .error .stale, attempts := 1, blockhash_fetches := 1, delays := [] }
    | .otherFailure e =>
      { result := .error (.other e), attempts := 1, blockhash_fetches := 1, delays := [] }

/-- The whole retry loop, starting at attempt 1. -/
def submit_with_retry (o : Nat → AttemptOutcome) : SubmitRun :=
  submitLoop o 1 MAX_RETRIES

/-- The record loop of `decodeLoop` re-expressed on the byte tail
`data.drop offset`; proved equal to `decodeLoop` below and used as its
proof interface. -/
def decodeRecs : Bytes → Nat → List ClaimRec
  | _, 0 => []
  | rest, n + 1 =>
    if rest.length < 32 then []
    else
      let claim_id_hash := rest.take 32
      let r1 := rest.drop 32
      if r1.length < 4 then []
      else
        let json_url_len := leNat (r1.take 4)
        let r2 := r1.drop 4
        if json_url_len > 1000 then []
        else if r2.length < json_url_len then []
        else
          let url := r2.take json_url_len
          if ¬ utf8Valid url then decodeRecs (r2.drop json_url_len) n
          else
            let r3 := r2.drop json_url_len
            if r3.length < 32 then []
            else
              let data_hash := r3.take 32
              let r4 := r3.drop 32
              if r4.length < 32 then []
              else
                let creator := r4.take 32
                let r5 := r4.drop 32
                if r5.length < 8 then []
                else
                  { claim_id_hash := claim_id_hash, json_url := url,
                    data_hash := data_hash, creator := creator,
                    created_at := leInt64 (r5.take 8) } :: decodeRecs (r5.drop 8) n

/-! ### Claim records as wire bytes -/

/-- A claim's wire form as one record, exactly the layout the decoder
consumes: 32-byte claim_id_hash, `encode_string` of the url (4-byte
little-endian length plus UTF-8 bytes), 32-byte data_hash, 32-byte
creator, 8-byte little-endian signed created_at. -/
def encode_claim_record (c : ClaimRec) : Bytes :=
  c.claim_id_hash ++ encode_string c.json_url ++ c.data_hash ++ c.creator ++
    intToLe8 c.created_at

/-- A well-formed claim: identifier digests of the invariant 32-byte
width, a url of valid UTF-8 within the decoder's 1000-byte ceiling, and a
timestamp in signed 64-bit range. -/
def ClaimRec.wf (c : ClaimRec) : Prop :=
  c.claim_id_hash.length = 32 ∧ c.data_hash.length = 32 ∧ c.creator.length = 32 ∧
    utf8Valid c.json_url = true ∧ c.json_url.length ≤ 1000 ∧
    -(2 ^ 63) ≤ c.created_at ∧ c.created_at < 2 ^ 63

instance (c : ClaimRec) : Decidable c.wf := by
  unfold ClaimRec.wf
  infer_instance

/-! ### Spec-side definitions, for refinement comparisons -/

/-- The account layout exactly as the spec states it, for comparison with
the code's `decodeAccountData`: `[8B discriminator][32B owner][1B + (0|32)B
pending_owner][4B claim_count][claim_count × claim record]` — so the
claim count is read at offset 41 when the tag byte at offset 40 is 0 and
at offset 73 when it is 1, with the record loop following immediately.
Corruption and truncation are collapsed to `none` here; only the layout
positions matter for the comparison. -/
def decodeAccountData_specLayout (data : Bytes) : Option (List ClaimRec) :=
  match data.get? 40 with
  | none => none
  | some tag =>
    let cntOff := if tag = 0 then 41 else 73
    if cntOff + 4 > data.length then none
    else
      let n := leNat (pySlice data cntOff (cntOff + 4))
      if n > 1000 then none
      else some (decodeLoop data (cntOff + 4) n)

/-- The add_claim wire template as the spec's §4.2 table states it:
the fixed 8-byte opcode, payload
`encode_string(claim_id) ++ encode_string(json_url) ++ data_hash`, and
ordered accounts `[registry: !signer,writable] [creator: signer,writable]`. -/
def add_claim_template_spec (creator claim_id json_url data_hash : Bytes) :
    Instruction :=
  { program_id := PROGRAM_ID
    data := [70, 114, 85, 106, 66, 244, 46, 99] ++
      encode_string claim_id ++ encode_string json_url ++ data_hash
    accounts :=
      [{ pubkey := get_pda, is_signer := false, is_writable := true },
       { pubkey := creator, is_signer := true, is_writable := true }] }

/-- The get_claims wire template as the spec's §4.2 table states it: the
fixed 8-byte opcode, empty payload, and ordered accounts
`[registry: !signer,!writable] [requester: signer,writable]`. -/
def get_claims_template_spec (requester : Bytes) : Instruction :=
  { program_id := PROGRAM_ID
    data := [137, 77, 151, 53, 39, 5, 110, 188]
    accounts :=
      [{ pubkey := get_pda, is_signer := false, is_writable := false },
       { pubkey := requester, is_signer := true, is_writable := true }] }

/-! ### Concrete example inputs -/

/-- The record a spec-layout reader finds at offset 45 of `c1_buf`. -/
def c1_spec_rec : ClaimRec :=
  { claim_id_hash := List.replicate 32 0, json_url := [97],
    data_hash := List.replicate 32 4, creator := List.replicate 32 5,
    created_at := 0 }

/-- A buffer whose pending_owner tag byte (offset 40) is 0, with the
4 bytes at offset 41 encoding claim count 1 and a complete well-formed
record following at offset 45 — the layout the spec describes for a
tag-0 buffer.  Read at the code's fixed offset 73 instead, the count
bytes fall inside the record's zero claim_id_hash and read 0. -/
def c1_buf : Bytes :=
  List.replicate 8 9 ++ List.replicate 32 7 ++ [0] ++ [1, 0, 0, 0] ++
    encode_claim_record c1_spec_rec

/-- First record of `c2_buf`: its url byte 0xFF is not valid UTF-8. -/
def c2_rec1 : ClaimRec :=
  { claim_id_hash := List.replicate 32 0, json_url := [255],
    data_hash := List.replicate 32 1, creator := List.replicate 32 2,
    created_at := 0 }

/-- Second record of `c2_buf`: entirely well-formed. -/
def c2_rec2 : ClaimRec :=
  { claim_id_hash := List.replicate 32 3, json_url := [97],
    data_hash := List.replicate 32 4, creator := List.replicate 32 5,
    created_at := 0 }

/-- A buffer declaring two records, the first with a malformed url, the
second well-formed. -/
def c2_buf : Bytes :=
  List.replicate 8 9 ++ List.replicate 32 7 ++ [1] ++ List.replicate 32 5 ++
    natToLe 4 2 ++ encode_claim_record c2_rec1 ++ encode_claim_record c2_rec2

/-- A 77-byte buffer whose claim count field holds 1001. -/
def c3_pre : Bytes := List.replicate 73 0 ++ [233, 3, 0, 0]

/-- A submission history: stale blockhash on attempts 1 and 2, success on
attempt 3. -/
def c4_outcomes : Nat → AttemptOutcome :=
  fun n => if n < 3 then .staleBlockhash else .success 7

/-- A well-formed claim used to witness the round-trip. -/
def c7_rec : ClaimRec :=
  { claim_id_hash := List.replicate 32 1, json_url := [104, 105],
    data_hash := List.replicate 32 2, creator := List.replicate 32 3,
    created_at := -5 }

/-- The complete record of `c10_buf`. -/
def c10_full_rec : ClaimRec :=
  { claim_id_hash := List.replicate 32 3, json_url := [97],
    data_hash := List.replicate 32 4, creator := List.replicate 32 5,
    created_at := 6 }

/-- The record cut short at byte 50 in `c10_buf`. -/
def c10_trunc_rec : ClaimRec :=
  { claim_id_hash := List.replicate 32 8, json_url := [98],
    data_hash := List.replicate 32 9, creator := List.replicate 32 10,
    created_at := 11 }

/-! ### Basic lemmas about the codec primitives -/

theorem natToLe_length (w n : Nat) : (natToLe w n).length = w := by
  induction w generalizing n with
  | zero => rfl
  | succ w ih => simp [natToLe, ih]

theorem leNat_natToLe (w n : Nat) (h : n < 2 ^ (8 * w)) :
    leNat (natToLe w n) = n := by
  induction w generalizing n with
  | zero => simp at h; simp [natToLe, leNat, h]
  | succ w ih =>
    have hpow : 2 ^ (8 * (w + 1)) = 2 ^ (8 * w) * 256 := by
      rw [Nat.mul_succ, pow_add]; norm_num
    have hdiv : n / 256 < 2 ^ (8 * w) := by
      rw [Nat.div_lt_iff_lt_mul (by norm_num : 0 < 256)]
      omega
    simp [natToLe, leNat, ih _ hdiv, Nat.mod_add_div]

theorem intToLe8_length (v : Int) : (intToLe8 v).length = 8 :=
  natToLe_length 8 _

theorem leInt64_intToLe8 (v : Int)
    (h1 : -(2 ^ 63) ≤ v) (h2 : v < 2 ^ 63) :
    leInt64 (intToLe8 v) = v := by
  have hl : (v % 2 ^ 64).toNat < 2 ^ (8 * 8) := by
    norm_num
    omega
  unfold leInt64 intToLe8
  rw [leNat_natToLe 8 _ hl]
  dsimp only
  split_ifs with hc
  · norm_num at h1 h2 hc ⊢
    omega
  · norm_num at h1 h2 hc ⊢
    omega

theorem pySlice_eq_drop_take (data : Bytes) (a w : Nat) :
    pySlice data a (a + w) = (data.drop a).take w := by
  simp [pySlice]

theorem pySlice_length (data : Bytes) (a w : Nat) (h : a + w ≤ data.length) :
    (pySlice data a (a + w)).length = w := by
  simp [pySlice]
  omega

theorem decodeLoop_eq_decodeRecs (n : Nat) (data : Bytes) :
    ∀ off : Nat, off ≤ data.length →
    decodeLoop data off n = decodeRecs (data.drop off) n := by
  induction n with
  | zero => intro off _; rfl
  | succ n ih =>
    intro off hoff
    simp only [decodeLoop, decodeRecs, pySlice_eq_drop_take, List.drop_drop,
      List.length_drop]
    by_cases h1 : off + 32 > data.length
    · rw [if_pos h1, if_pos (by omega : data.length - off < 32)]
    · rw [if_neg h1, if_neg (by omega : ¬ data.length - off < 32)]
      by_cases h2 : off + 32 + 4 > data.length
      · rw [if_pos h2, if_pos (by omega : data.length - (off + 32) < 4)]
      · rw [if_neg h2, if_neg (by omega : ¬ data.length - (off + 32) < 4)]
        by_cases h3 : leNat ((data.drop (off + 32)).take 4) > 1000
        · rw [if_pos h3, if_pos h3]
        · rw [if_neg h3, if_neg h3]
          by_cases h4 : off + 32 + 4 + leNat ((data.drop (off + 32)).take 4) > data.length
          · rw [if_pos h4,
              if_pos (by omega :
                data.length - (off + 32 + 4) < leNat ((data.drop (off + 32)).take 4))]
          · rw [if_neg h4,
              if_neg (by omega :
                ¬ data.length - (off + 32 + 4) < leNat ((data.drop (off + 32)).take 4))]
            by_cases h5 :
              utf8Valid ((data.drop (off + 32 + 4)).take (leNat ((data.drop (off + 32)).take 4))) = true
            · have hu := not_not_intro h5
              rw [if_neg hu, if_neg hu]
              by_cases h6 : off + 32 + 4 + leNat ((data.drop (off + 32)).take 4) + 32 > data.length
              · rw [if_pos h6,
                  if_pos (by omega :
                    data.length - (off + 32 + 4 + leNat ((data.drop (off + 32)).take 4)) < 32)]
              · rw [if_neg h6,
                  if_neg (by omega :
                    ¬ data.length - (off + 32 + 4 + leNat ((data.drop (off + 32)).take 4)) < 32)]
                by_cases h7 :
                  off + 32 + 4 + leNat ((data.drop (off + 32)).take 4) + 32 + 32 > data.length
                · rw [if_pos h7,
                    if_pos (by omega :
                      data.length - (off + 32 + 4 + leNat ((data.drop (off + 32)).take 4) + 32) < 32)]
                · rw [if_neg h7,
                    if_neg (by omega :
                      ¬ data.length - (off + 32 + 4 + leNat ((data.drop (off + 32)).take 4) + 32) < 32)]
                  by_cases h8 :
                    off + 32 + 4 + leNat ((data.drop (off + 32)).take 4) + 32 + 32 + 8 > data.length
                  · rw [if_pos h8,
                      if_pos (by omega :
                        data.length -
                          (off + 32 + 4 + leNat ((data.drop (off + 32)).take 4) + 32 + 32) < 8)]
                  · rw [if_neg h8,
                      if_neg (by omega :
                        ¬ data.length -
                          (off + 32 + 4 + leNat ((data.drop (off + 32)).take 4) + 32 + 32) < 8)]
                    rw [ih _ (by omega)]
            · rw [if_pos h5, if_pos h5]
              rw [ih _ (by omega)]

theorem pySlice_append_left (l₁ l₂ : Bytes) (a b : Nat) (h : b ≤ l₁.length) :
    pySlice (l₁ ++ l₂) a b = pySlice l₁ a b := by
  unfold pySlice
  by_cases ha : a ≤ l₁.length
  · rw [List.drop_append_of_le_length ha,
      List.take_append_of_le_length (by rw [List.length_drop]; omega)]
  · have hb : b - a = 0 := by omega
    simp [hb]

theorem encode_claim_record_length (c : ClaimRec) (h : c.wf) :
    (encode_claim_record c).length = 108 + c.json_url.length := by
  obtain ⟨h1, h2, h3, _, _, _, _⟩ := h
  simp [encode_claim_record, encode_string, natToLe_length, intToLe8_length,
    h1, h2, h3]
  omega

/-- Decoding a buffer that starts with one well-formed encoded record
yields that record and continues on the rest. -/
theorem decodeRecs_cons (c : ClaimRec) (hwf : c.wf) (suffix : Bytes) (n : Nat) :
    decodeRecs (encode_claim_record c ++ suffix) (n + 1) = c :: decodeRecs suffix n := by
  obtain ⟨hash, url, dh, cr, ts⟩ := c
  obtain ⟨h1, h2, h3, h4, h5, h6, h7⟩ := hwf
  dsimp only at h1 h2 h3 h4 h5 h6 h7
  have hle4 : (natToLe 4 url.length).length = 4 := natToLe_length 4 _
  have hts : (intToLe8 ts).length = 8 := intToLe8_length _
  have hurlLen : leNat (natToLe 4 url.length) = url.length := by
    refine leNat_natToLe 4 _ ?_
    norm_num
    omega
  have hts64 : leInt64 (intToLe8 ts) = ts := leInt64_intToLe8 ts h6 h7
  simp only [decodeRecs, encode_claim_record, encode_string, List.append_assoc]
  rw [List.drop_left' h1, List.take_left' h1]
  rw [List.drop_left' hle4, List.take_left' hle4, hurlLen]
  rw [List.take_left url, List.drop_left url]
  rw [List.drop_left' h2, List.take_left' h2]
  rw [List.drop_left' h3, List.take_left' h3]
  rw [List.drop_left' hts, List.take_left' hts]
  rw [hts64]
  simp only [List.length_append, h1, h2, h3, hle4, hts]
  split_ifs with g1 g2 g3 g4 g5 g6 g7
  · omega
  · omega
  · omega
  · omega
  · omega
  · omega
  · omega
  · rfl

/-- Decoding a buffer that is a strict prefix of one well-formed encoded
record always stops at a bounds check and yields nothing. -/
theorem decodeRecs_take_nil (c : ClaimRec) (hwf : c.wf) (m : Nat)
    (hm : m < (encode_claim_record c).length) (fuel : Nat) :
    decodeRecs ((encode_claim_record c).take m) fuel = [] := by
  cases fuel with
  | zero => rfl
  | succ n =>
    obtain ⟨hash, url, dh, cr, ts⟩ := c
    obtain ⟨h1, h2, h3, h4, h5, h6, h7⟩ := hwf
    dsimp only at h1 h2 h3 h4 h5 h6 h7
    have hle4 : (natToLe 4 url.length).length = 4 := natToLe_length 4 _
    have hts : (intToLe8 ts).length = 8 := intToLe8_length _
    have hurlLen : leNat (natToLe 4 url.length) = url.length := by
      refine leNat_natToLe 4 _ ?_
      norm_num
      omega
    simp only [encode_claim_record, encode_string, List.append_assoc,
      List.length_append, h1, h2, h3, hle4, hts] at hm
    simp only [decodeRecs, encode_claim_record, encode_string, List.append_assoc]
    have hPlen :
        (List.take m (hash ++ (natToLe 4 url.length ++ (url ++ (dh ++ (cr ++ intToLe8 ts)))))).length = m := by
      simp [List.length_take, List.length_append, h1, h2, h3, hle4, hts]
      omega
    rw [hPlen]
    by_cases k1 : m < 32
    · rw [if_pos k1]
    · rw [if_neg k1]
      rw [List.drop_take, List.drop_left' h1]
      have hr1len :
          ((natToLe 4 url.length ++ (url ++ (dh ++ (cr ++ intToLe8 ts)))).take (m - 32)).length = m - 32 := by
        simp [List.length_take, List.length_append, h2, h3, hle4, hts]
        omega
      rw [hr1len]
      by_cases k2 : m < 36
      · rw [if_pos (by omega : m - 32 < 4)]
      · rw [if_neg (by omega : ¬ m - 32 < 4)]
        rw [List.take_take]
        have hmin4 : min 4 (m - 32) = 4 := by omega
        rw [hmin4, List.take_left' hle4, hurlLen]
        rw [List.drop_take, List.drop_left' hle4]
        rw [if_neg (by omega : ¬ url.length > 1000)]
        have hr2len :
            ((url ++ (dh ++ (cr ++ intToLe8 ts))).take (m - 32 - 4)).length = m - 36 := by
          simp [List.length_take, List.length_append, h2, h3, hts]
          omega
        rw [hr2len]
        by_cases k3 : m < 36 + url.length
        · rw [if_pos (by omega : m - 36 < url.length)]
        · rw [if_neg (by omega : ¬ m - 36 < url.length)]
          rw [List.take_take]
          have hminL : min url.length (m - 32 - 4) = url.length := by omega
          rw [hminL, List.take_left url]
          rw [if_neg (not_not_intro h4)]
          rw [List.drop_take, List.drop_left url]
          have hr3len :
              ((dh ++ (cr ++ intToLe8 ts)).take (m - 32 - 4 - url.length)).length = m - 36 - url.length := by
            simp [List.length_take, List.length_append, h2, h3, hts]
            omega
          rw [hr3len]
          by_cases k4 : m < 68 + url.length
          · rw [if_pos (by omega : m - 36 - url.length < 32)]
          · rw [if_neg (by omega : ¬ m - 36 - url.length < 32)]
            rw [List.drop_take, List.drop_left' h2]
            have hr4len :
                ((cr ++ intToLe8 ts).take (m - 32 - 4 - url.length - 32)).length = m - 68 - url.length := by
              simp [List.length_take, List.length_append, h3, hts]
              omega
            rw [hr4len]
            by_cases k5 : m < 100 + url.length
            · rw [if_pos (by omega : m - 68 - url.length < 32)]
            · rw [if_neg (by omega : ¬ m - 68 - url.length < 32)]
              rw [List.drop_take, List.drop_left' h3]
              have hr5len :
                  ((intToLe8 ts).take (m - 32 - 4 - url.length - 32 - 32)).length = m - 100 - url.length := by
                simp [List.length_take, hts]
                omega
              rw [hr5len]
              rw [if_pos (by omega : m - 100 - url.length < 8)]

/-- Decoding a concatenation of well-formed records followed by a tail
yields those records followed by the decode of the tail on the remaining
fuel. -/
theorem decodeRecs_join (recs : List ClaimRec) (h : ∀ r ∈ recs, r.wf)
    (tail : Bytes) : ∀ n : Nat, recs.length ≤ n →
    decodeRecs ((recs.map encode_claim_record).flatten ++ tail) n =
      recs ++ decodeRecs tail (n - recs.length) := by
  induction recs with
  | nil =>
    intro n hn
    simp
  | cons r rs ih =>
    intro n hn
    cases n with
    | zero => simp at hn
    | succ n =>
      simp only [List.map_cons, List.flatten_cons, List.append_assoc]
      rw [decodeRecs_cons r (h r (by simp)) _ n]
      rw [ih (fun x hx => h x (by simp [hx])) n (by simpa using hn)]
      simp [Nat.succ_sub_succ]

/-- Once the 73-byte header region is present, the decode never raises:
the claim count is read at offset 73, bounds-checked, sanity-checked, and
the record loop starts at offset 77. -/
theorem decodeAccountData_of_header_fits (data : Bytes) (h : 73 ≤ data.length) :
    decodeAccountData data =
      if 77 > data.length then .reinit .countTruncated
      else if leNat (pySlice data 73 77) > 1000 then .reinit .corruptCount
      else .claims (decodeLoop data 77 (leNat (pySlice data 73 77))) := by
  unfold decodeAccountData
  have howner : (pySlice data 8 40).length = 32 := by
    unfold pySlice
    simp
    omega
  rw [if_neg (not_not_intro howner)]
  cases h40 : data.get? 40 with
  | none =>
    exfalso
    have := List.get?_eq_none.mp h40
    omega
  | some tag =>
    have hpend : (pySlice data 41 73).length = 32 := by
      unfold pySlice
      simp
      omega
    have hc : ¬ (tag ≠ 0 ∧ (pySlice data 41 73).length ≠ 32) := by
      intro hcon
      exact hcon.2 hpend
    dsimp only
    rw [if_neg hc]

theorem drop_append_ge (l₁ l₂ : Bytes) (n : Nat) (h : l₁.length ≤ n) :
    (l₁ ++ l₂).drop n = l₂.drop (n - l₁.length) := by
  rw [List.drop_append_eq_append_drop, List.drop_of_length_le h]
  simp

/-- One run of the retry loop, fully characterized by the outcomes of the
first three attempts. -/
theorem submit_with_retry_eq (o : Nat → AttemptOutcome) :
    submit_with_retry o =
      match o 1 with
      | .success s => ⟨.ok s, 1, 1, []⟩
      | .otherFailure e => ⟨.error (.other e), 1, 1, []⟩
      | .staleBlockhash =>
        match o 2 with
        | .success s => ⟨.ok s, 2, 2, [RETRY_DELAY]⟩
        | .otherFailure e => ⟨.error (.other e), 2, 2, [RETRY_DELAY]⟩
        | .staleBlockhash =>
          match o 3 with
          | .success s => ⟨.ok s, 3, 3, [RETRY_DELAY, RETRY_DELAY]⟩
          | .otherFailure e => ⟨.error (.other e), 3, 3, [RETRY_DELAY, RETRY_DELAY]⟩
          | .staleBlockhash => ⟨.error .stale, 3, 3, [RETRY_DELAY, RETRY_DELAY]⟩ := by
  cases h1 : o 1 with
  | success s => simp [submit_with_retry, MAX_RETRIES, submitLoop, h1]
  | otherFailure e => simp [submit_with_retry, MAX_RETRIES, submitLoop, h1]
  | staleBlockhash =>
    cases h2 : o 2 with
    | success s => simp [submit_with_retry, MAX_RETRIES, submitLoop, h1, h2]
    | otherFailure e => simp [submit_with_retry, MAX_RETRIES, submitLoop, h1, h2]
    | staleBlockhash =>
      cases h3 : o 3 with
      | success s => simp [submit_with_retry, MAX_RETRIES, submitLoop, h1, h2, h3]
      | otherFailure e => simp [submit_with_retry, MAX_RETRIES, submitLoop, h1, h2, h3]
      | staleBlockhash => simp [submit_with_retry, MAX_RETRIES, submitLoop, h1, h2, h3]

/-! ### The claims -/

set_option maxRecDepth 8000 in
/-- C1, counterexample: the decoder does not read the claim count at
offset 41 when the tag byte is 0.  On `c1_buf` (tag byte 0, count 1 at
offset 41, a well-formed record at offset 45) the spec's stated layout
yields that record, but the code reads the count at the fixed offset 73 —
inside the record's zero hash — and returns no claims. -/
theorem claim1_counterexample :
    decodeAccountData c1_buf = .claims []
  ∧ decodeAccountData_specLayout c1_buf = some [c1_spec_rec]
  ∧ pySlice c1_buf 40 41 = [0]
  ∧ leNat (pySlice c1_buf 41 45) = 1
  ∧ returned_claims (decodeAccountData c1_buf) ≠ some [c1_spec_rec] :=
  ⟨by decide, by decide, by decide, by decide, by decide⟩

/-- C1, amended: the decoder parses by fixed positions only — 8-byte
discriminator, 32-byte owner, a pending_owner slot always occupying 33
bytes (tag at offset 40, body bytes 41-72 consumed regardless of the
tag), and the 4-byte claim_count always read at offset 73, with the
record loop starting at offset 77. -/
theorem claim1_amended (data : Bytes) (h : 77 ≤ data.length) :
    decodeAccountData data =
      if leNat (pySlice data 73 77) > 1000 then .reinit .corruptCount
      else .claims (decodeLoop data 77 (leNat (pySlice data 73 77))) := by
  rw [decodeAccountData_of_header_fits data (by omega),
    if_neg (by omega : ¬ 77 > data.length)]

theorem claim1_amended_witness :
    decodeAccountData (List.replicate 77 0) = .claims [] := by
  rw [claim1_amended (List.replicate 77 0) (by decide)]
  decide

set_option maxRecDepth 8000 in
/-- C2, code-bug evaluation: on `c2_buf` — whose only malformed record is
the first (url byte 0xFF), with a fully well-formed second record that
decodes on its own — the decoder returns no claims at all: the skip path
advances the cursor only past the url bytes, so the second record is
misparsed instead of decoded. -/
theorem claim2_skip_misparse :
    decodeAccountData c2_buf = .claims []
  ∧ utf8Valid c2_rec1.json_url = false
  ∧ c2_rec2.wf
  ∧ decodeLoop (encode_claim_record c2_rec2) 0 1 = [c2_rec2] :=
  ⟨by decide, by decide, by decide, by decide⟩

/-- C3: a buffer whose claim count field (bytes 73-76) exceeds 1000
decodes to the corrupt-account outcome with an empty claim list, and no
byte beyond the count field is read: the result is the same for every
choice of bytes after offset 77. -/
theorem claim3_corrupt_count (pre junk : Bytes) (hlen : pre.length = 77)
    (hcnt : 1000 < leNat (pySlice pre 73 77)) :
    decodeAccountData (pre ++ junk) = .reinit .corruptCount
  ∧ returned_claims (decodeAccountData (pre ++ junk)) = some [] := by
  have hL : (pre ++ junk).length = 77 + junk.length := by simp [hlen]
  have hsl : pySlice (pre ++ junk) 73 77 = pySlice pre 73 77 :=
    pySlice_append_left pre junk 73 77 (by omega)
  have hfit := decodeAccountData_of_header_fits (pre ++ junk) (by omega)
  rw [hsl] at hfit
  rw [hfit, if_neg (by omega : ¬ 77 > (pre ++ junk).length), if_pos hcnt]
  exact ⟨rfl, rfl⟩

theorem claim3_corrupt_count_witness :
    decodeAccountData (c3_pre ++ [1, 2, 3]) = .reinit .corruptCount
  ∧ returned_claims (decodeAccountData (c3_pre ++ [1, 2, 3])) = some [] :=
  claim3_corrupt_count c3_pre [1, 2, 3] (by decide) (by decide)

/-- C4: the submitter makes at most 3 attempts, fetches a fresh blockhash
before each attempt, sleeps 2 seconds before each retry, and retries only
when the attempt failed with a stale blockhash; stale on attempts 1 and 2
followed by success on attempt 3 yields success after exactly 3 attempts
and two delays, and any other failure surfaces at once with no further
attempt and no further delay. -/
theorem claim4_retry_policy :
    (∀ (o : Nat → AttemptOutcome) (s : Nat),
      o 1 = .staleBlockhash → o 2 = .staleBlockhash → o 3 = .success s →
      submit_with_retry o =
        { result := .ok s, attempts := 3, blockhash_fetches := 3, delays := [2, 2] })
  ∧ (∀ (o : Nat → AttemptOutcome) (k e : Nat), 1 ≤ k → k ≤ 3 →
      (∀ j, 1 ≤ j → j < k → o j = .staleBlockhash) → o k = .otherFailure e →
      submit_with_retry o =
        { result := .error (.other e), attempts := k, blockhash_fetches := k,
          delays := List.replicate (k - 1) RETRY_DELAY })
  ∧ ∀ o : Nat → AttemptOutcome,
      (submit_with_retry o).attempts ≤ 3
      ∧ (submit_with_retry o).blockhash_fetches = (submit_with_retry o).attempts
      ∧ (submit_with_retry o).delays =
          List.replicate ((submit_with_retry o).attempts - 1) RETRY_DELAY
      ∧ ∀ j, 1 ≤ j → j < (submit_with_retry o).attempts → o j = .staleBlockhash := by
  refine ⟨?_, ?_, ?_⟩
  · intro o s h1 h2 h3
    rw [submit_with_retry_eq, h1, h2, h3]
    rfl
  · intro o k e hk1 hk3 hst hk
    interval_cases k
    · rw [submit_with_retry_eq, hk]
      rfl
    · have h1 := hst 1 (by omega) (by omega)
      rw [submit_with_retry_eq, h1, hk]
      rfl
    · have h1 := hst 1 (by omega) (by omega)
      have h2 := hst 2 (by omega) (by omega)
      rw [submit_with_retry_eq, h1, h2, hk]
      rfl
  · intro o
    rw [submit_with_retry_eq]
    cases h1 : o 1 with
    | success s =>
      refine ⟨by norm_num, rfl, rfl, ?_⟩
      intro j hj1 hj2
      have hj2' : j < 1 := hj2
      omega
    | otherFailure e =>
      refine ⟨by norm_num, rfl, rfl, ?_⟩
      intro j hj1 hj2
      have hj2' : j < 1 := hj2
      omega
    | staleBlockhash =>
      cases h2 : o 2 with
      | success s =>
        refine ⟨by norm_num, rfl, rfl, ?_⟩
        intro j hj1 hj2
        have hj2' : j < 2 := hj2
        have hj : j = 1 := by omega
        rw [hj, h1]
      | otherFailure e =>
        refine ⟨by norm_num, rfl, rfl, ?_⟩
        intro j hj1 hj2
        have hj2' : j < 2 := hj2
        have hj : j = 1 := by omega
        rw [hj, h1]
      | staleBlockhash =>
        cases h3 : o 3 with
        | success s =>
          refine ⟨by norm_num, rfl, rfl, ?_⟩
          intro j hj1 hj2
          have hj2' : j < 3 := hj2
          have hj : j = 1 ∨ j = 2 := by omega
          rcases hj with rfl | rfl
          · exact h1
          · exact h2
        | otherFailure e =>
          refine ⟨by norm_num, rfl, rfl, ?_⟩
          intro j hj1 hj2
          have hj2' : j < 3 := hj2
          have hj : j = 1 ∨ j = 2 := by omega
          rcases hj with rfl | rfl
          · exact h1
          · exact h2
        | staleBlockhash =>
          refine ⟨by norm_num, rfl, rfl, ?_⟩
          intro j hj1 hj2
          have hj2' : j < 3 := hj2
          have hj : j = 1 ∨ j = 2 := by omega
          rcases hj with rfl | rfl
          · exact h1
          · exact h2

theorem claim4_retry_policy_witness :
    submit_with_retry c4_outcomes =
      { result := .ok 7, attempts := 3, blockhash_fetches := 3, delays := [2, 2] } :=
  claim4_retry_policy.1 c4_outcomes 7 rfl rfl rfl

/-- C5, counterexample: `build_add_claim_instruction` with an empty
claim_id raises nothing and constructs the full instruction — only the
data_hash length is validated there. -/
theorem claim5_counterexample :
    build_add_claim_instruction (List.replicate 32 1) [] [104] (List.replicate 32 0) =
      .ok { program_id := PROGRAM_ID,
            data := [70, 114, 85, 106, 66, 244, 46, 99] ++ encode_string [] ++
              encode_string [104] ++ List.replicate 32 0,
            accounts :=
              [{ pubkey := get_pda, is_signer := false, is_writable := true },
               { pubkey := List.replicate 32 1, is_signer := true, is_writable := true }] } :=
  by decide

/-- C5, amended: `BioHackClient.add_claim` validates, before its network
call, exactly that claim_id is non-empty, json_url is non-empty and
data_hash is 32 bytes; `test_runner`'s `build_add_claim_instruction`
raises exactly when the data_hash is not 32 bytes, and otherwise builds
the instruction even for empty claim_id or json_url. -/
theorem claim5_amended :
    (∀ claim_id json_url data_hash : Bytes,
      BioHackClient.add_claim_validate claim_id json_url data_hash = none ↔
        claim_id ≠ [] ∧ json_url ≠ [] ∧ data_hash.length = 32)
  ∧ ∀ creator claim_id json_url data_hash : Bytes,
      (build_add_claim_instruction creator claim_id json_url data_hash = .error ()) ↔
        data_hash.length ≠ 32 := by
  constructor
  · intro a b c
    unfold BioHackClient.add_claim_validate
    split_ifs with t1 t2 t3 <;> simp_all [List.isEmpty_iff]
  · intro creator a b c
    unfold build_add_claim_instruction
    split_ifs with t <;> simp [t]

theorem claim5_amended_witness :
    BioHackClient.add_claim_validate [1] [2] (List.replicate 32 0) = none
  ∧ build_add_claim_instruction (List.replicate 32 9) [1] [2] [] = .error () :=
  ⟨(claim5_amended.1 [1] [2] (List.replicate 32 0)).mpr (by decide),
   (claim5_amended.2 (List.replicate 32 9) [1] [2] []).mpr (by decide)⟩

/-- C6, counterexample: a buffer truncated inside the pending_owner field
does not yield a graceful truncation outcome — the unchecked `data[40]`
read raises `IndexError` on a 40-byte buffer, and the unchecked
`Pubkey(data[8:40])` raises `ValueError` on a 10-byte one. -/
theorem claim6_counterexample :
    decodeAccountData (List.replicate 40 0) = .raised .indexError
  ∧ decodeAccountData (List.replicate 10 0) = .raised .valueError :=
  ⟨by decide, by decide⟩

/-- C6, amended: from the claim_count field on, every read is preceded by
an explicit `offset + width ≤ len` check and truncation degrades
gracefully (reinitialize-and-empty for the count, a decoded prefix for
record fields) — once the 73-byte header region is present the decode
never raises; but the three header fields are read unchecked: a buffer
shorter than 40 bytes raises `ValueError`, one of exactly 40 bytes raises
`IndexError`, and one of 41-72 bytes raises `ValueError` when its tag
byte is nonzero, while a zero tag byte falls through to the claim-count
bounds check. -/
theorem claim6_amended :
    (∀ data : Bytes, 73 ≤ data.length → ∀ e, decodeAccountData data ≠ .raised e)
  ∧ (∀ data : Bytes, 73 ≤ data.length → data.length < 77 →
      decodeAccountData data = .reinit .countTruncated)
  ∧ (∀ data : Bytes, data.length < 40 → decodeAccountData data = .raised .valueError)
  ∧ (∀ data : Bytes, data.length = 40 → decodeAccountData data = .raised .indexError)
  ∧ (∀ (data : Bytes) (t : Nat), 41 ≤ data.length → data.length ≤ 72 →
      data.get? 40 = some t → t ≠ 0 →
      decodeAccountData data = .raised .valueError)
  ∧ ∀ data : Bytes, 41 ≤ data.length → data.length ≤ 72 → data.get? 40 = some 0 →
      decodeAccountData data = .reinit .countTruncated := by
  refine ⟨?_, ?_, ?_, ?_, ?_, ?_⟩
  · intro data h e
    rw [decodeAccountData_of_header_fits data h]
    split_ifs <;> simp
  · intro data h h77
    rw [decodeAccountData_of_header_fits data h, if_pos (by omega : 77 > data.length)]
  · intro data h
    unfold decodeAccountData
    rw [if_pos (by simp only [pySlice, List.length_take, List.length_drop]; omega)]
  · intro data h
    unfold decodeAccountData
    rw [if_neg (not_not_intro
      (by simp only [pySlice, List.length_take, List.length_drop]; omega))]
    rw [List.get?_eq_none.mpr (by omega)]
  · intro data t h41 h72 h40 ht
    unfold decodeAccountData
    rw [if_neg (not_not_intro
      (by simp only [pySlice, List.length_take, List.length_drop]; omega))]
    rw [h40]
    dsimp only
    rw [if_pos ⟨ht,
      by simp only [pySlice, List.length_take, List.length_drop]; omega⟩]
  · intro data h41 h72 h40
    unfold decodeAccountData
    rw [if_neg (not_not_intro
      (by simp only [pySlice, List.length_take, List.length_drop]; omega))]
    rw [h40]
    dsimp only
    rw [if_neg (by simp), if_pos (by omega : 73 + 4 > data.length)]

theorem claim6_amended_witness :
    decodeAccountData (List.replicate 75 0) = .reinit .countTruncated :=
  claim6_amended.2.1 (List.replicate 75 0) (by decide) (by decide)

/-- C7: encoding any in-bounds well-formed claim as a single wire record
and decoding that record with the record loop reproduces every field
bit-exactly. -/
theorem claim7_roundtrip (c : ClaimRec) (h : c.wf) :
    decodeLoop (encode_claim_record c) 0 1 = [c] := by
  rw [decodeLoop_eq_decodeRecs 1 (encode_claim_record c) 0 (by omega)]
  rw [List.drop_zero]
  have h2 := decodeRecs_cons c h [] 0
  rw [List.append_nil] at h2
  rw [h2]
  rfl

theorem claim7_roundtrip_witness :
    c7_rec.wf ∧ decodeLoop (encode_claim_record c7_rec) 0 1 = [c7_rec] :=
  ⟨by decide, claim7_roundtrip c7_rec (by decide)⟩

/-- C8: for valid inputs, `build_add_claim_instruction` emits exactly the
spec's add_claim template (fixed opcode, `encode_string(claim_id) ++
encode_string(json_url) ++ data_hash`, accounts [registry: not-signer,
writable], [creator: signer, writable]) and `build_get_claims_instruction`
emits exactly the spec's get_claims template (fixed opcode, empty payload,
accounts [registry: not-signer, not-writable], [requester: signer,
writable]). -/
theorem claim8_templates :
    (∀ creator claim_id json_url data_hash : Bytes, data_hash.length = 32 →
      build_add_claim_instruction creator claim_id json_url data_hash =
        .ok (add_claim_template_spec creator claim_id json_url data_hash))
  ∧ ∀ requester : Bytes,
      build_get_claims_instruction requester = get_claims_template_spec requester := by
  constructor
  · intro creator claim_id json_url data_hash h
    unfold build_add_claim_instruction add_claim_template_spec
    rw [if_neg (not_not_intro h)]
  · intro requester
    rfl

theorem claim8_templates_witness :
    build_add_claim_instruction (List.replicate 32 1) [104] [105] (List.replicate 32 2) =
      .ok (add_claim_template_spec (List.replicate 32 1) [104] [105]
        (List.replicate 32 2)) :=
  claim8_templates.1 (List.replicate 32 1) [104] [105] (List.replicate 32 2) (by decide)

/-- C9: when the registry account snapshot is absent, `get_claims` does
not fail: it issues an `initialize()` submission from the read path and
returns exactly the empty list. -/
theorem claim9_absent_account :
    get_claims none = .reinit .accountAbsent
  ∧ initialize_invoked (get_claims none) = true
  ∧ returned_claims (get_claims none) = some [] :=
  ⟨rfl, rfl, rfl⟩

/-- C10: a buffer holding a valid header, a claim count within the
ceiling, `i` well-formed records and then a strict prefix of a further
well-formed record (for `i <` the declared count) decodes, without
raising, to exactly those `i` records — the truncation point stops the
loop at a bounds check. -/
theorem claim10_truncation_yields_decoded_records (disc owner pend : Bytes)
    (recs : List ClaimRec) (r : ClaimRec) (m n : Nat)
    (hdisc : disc.length = 8) (howner : owner.length = 32) (hpend : pend.length = 33)
    (hrecs : ∀ x ∈ recs, x.wf) (hr : r.wf)
    (hm : m < (encode_claim_record r).length)
    (hn : recs.length < n) (hn1000 : n ≤ 1000) :
    decodeAccountData
        (disc ++ owner ++ pend ++ natToLe 4 n ++
          (recs.map encode_claim_record).flatten ++ (encode_claim_record r).take m) =
      .claims recs := by
  have hlen : 77 ≤ (disc ++ owner ++ pend ++ natToLe 4 n ++
      (recs.map encode_claim_record).flatten ++ (encode_claim_record r).take m).length := by
    simp only [List.length_append, hdisc, howner, hpend, natToLe_length]
    omega
  have hdrop73 : (disc ++ owner ++ pend ++ natToLe 4 n ++
      (recs.map encode_claim_record).flatten ++ (encode_claim_record r).take m).drop 73 =
      natToLe 4 n ++ ((recs.map encode_claim_record).flatten ++
        (encode_claim_record r).take m) := by
    simp only [List.append_assoc]
    rw [drop_append_ge disc _ 73 (by omega), hdisc]
    rw [drop_append_ge owner _ (73 - 8) (by omega), howner]
    rw [drop_append_ge pend _ (73 - 8 - 32) (by omega), hpend]
    norm_num
  have hcount : pySlice (disc ++ owner ++ pend ++ natToLe 4 n ++
      (recs.map encode_claim_record).flatten ++ (encode_claim_record r).take m) 73 77 =
      natToLe 4 n := by
    have hps : pySlice (disc ++ owner ++ pend ++ natToLe 4 n ++
        (recs.map encode_claim_record).flatten ++ (encode_claim_record r).take m) 73 77 =
        ((disc ++ owner ++ pend ++ natToLe 4 n ++
          (recs.map encode_claim_record).flatten ++
          (encode_claim_record r).take m).drop 73).take 4 := by
      simp [pySlice]
    rw [hps, hdrop73, List.take_left' (natToLe_length 4 n)]
  have hdrop77 : (disc ++ owner ++ pend ++ natToLe 4 n ++
      (recs.map encode_claim_record).flatten ++ (encode_claim_record r).take m).drop 77 =
      (recs.map encode_claim_record).flatten ++ (encode_claim_record r).take m := by
    have hdd : ((disc ++ owner ++ pend ++ natToLe 4 n ++
        (recs.map encode_claim_record).flatten ++
        (encode_claim_record r).take m).drop 73).drop 4 =
        (disc ++ owner ++ pend ++ natToLe 4 n ++
          (recs.map encode_claim_record).flatten ++
          (encode_claim_record r).take m).drop 77 := by
      rw [List.drop_drop]
    rw [← hdd, hdrop73, List.drop_left' (natToLe_length 4 n)]
  rw [decodeAccountData_of_header_fits _ (le_trans (by norm_num) hlen), hcount,
    leNat_natToLe 4 n (by norm_num; omega)]
  rw [if_neg (by omega), if_neg (by omega : ¬ n > 1000)]
  rw [decodeLoop_eq_decodeRecs n _ 77 (by omega), hdrop77]
  rw [decodeRecs_join recs hrecs ((encode_claim_record r).take m) n (by omega)]
  rw [decodeRecs_take_nil r hr m hm]
  simp

theorem claim10_truncation_witness :
    decodeAccountData
        (List.replicate 8 9 ++ List.replicate 32 7 ++ List.replicate 33 5 ++
          natToLe 4 2 ++ ([c10_full_rec].map encode_claim_record).flatten ++
          (encode_claim_record c10_trunc_rec).take 50) =
      .claims [c10_full_rec] :=
  claim10_truncation_yields_decoded_records (List.replicate 8 9) (List.replicate 32 7)
    (List.replicate 33 5) [c10_full_rec] c10_trunc_rec 50 2 (by decide) (by decide)
    (by decide) (by decide) (by decide) (by decide) (by decide) (by decide)

end BioChain
